import Mathlib

/-!
Shallow embedding of `Source/ChrisUnrealKit/Public/EnhancedJsonConverter/EnhancedJsonConverter.h`
(namespace `ChrisUE`, class `FEnhancedJsonConverter`).

The module wraps Unreal's generic JSON/struct converter with optional per-type
hooks (`PostJsonImport` / `PostJsonExport`) detected at compile time via SFINAE.

Modelling decisions:
* `TSharedPtr<FJsonObject>` is `Option FJsonObject`; `IsValid()` is `Option.isSome`,
  `nullptr` is `none`.
* A C++ struct type `TStruct` together with the template machinery specialised at it
  is a `StructType S`: the two external `FJsonObjectConverter` entry points
  (`JsonObjectToUStruct`, `UStructToJsonObject`) become the abstract fields
  `genericImport` / `genericExport`, the compile-time trait values
  `THasPostJsonImport<T>::Value` / `THasPostJsonExport<T>::Value` become the
  booleans `hasPostJsonImport` / `hasPostJsonExport`, and the hook members become
  the fields `postJsonImport` / `postJsonExport` (only consulted when the
  corresponding flag is true, mirroring `if constexpr`).
* In-place mutation of `OutStruct` becomes explicit state passing: the generic
  importer returns `Bool × S` (success flag and the possibly-partially-written
  struct), the import hook returns the updated struct.
* To make the spec's observational claims ("the hook is never invoked", "the hook
  receives the original value", "the generic mapper is never reached") provable,
  each operation also returns the trace of collaborator calls it performed, each
  entry recording the argument passed, in invocation order.  The control flow is
  otherwise a line-for-line transcription of the header.
-/

namespace ChrisUE

/-- The JSON tree (`FJsonValue`): object / array / string / number / bool / null. -/
inductive JsonValue where
  | obj : List (String × JsonValue) → JsonValue
  | arr : List JsonValue → JsonValue
  | str : String → JsonValue
  | num : Int → JsonValue
  | boolean : Bool → JsonValue
  | null : JsonValue

/-- `FJsonObject`: a JSON object, i.e. an association list of fields. -/
abbrev FJsonObject := List (String × JsonValue)

/-- A C++ struct type `TStruct` as seen by `FEnhancedJsonConverter`, with the
external `FJsonObjectConverter` specialised at it and its compile-time hook
capabilities.  `genericImport` models `FJsonObjectConverter::JsonObjectToUStruct`
(returns the success flag and the possibly-mutated struct); `genericExport`
models `FJsonObjectConverter::UStructToJsonObject` (returns a nullable object).
`hasPostJsonImport` / `hasPostJsonExport` are `THasPostJsonImport<T>::Value` /
`THasPostJsonExport<T>::Value`; a hook field is only reachable when its flag is
true, as with `if constexpr` in the header. -/
structure StructType (S : Type) where
  genericImport : FJsonObject → S → Bool × S
  genericExport : S → Option FJsonObject
  hasPostJsonImport : Bool
  postJsonImport : S → Option FJsonObject → S
  hasPostJsonExport : Bool
  postJsonExport : S → Option FJsonObject → Option FJsonObject

variable {S : Type}

/-- Result of a decode entry point: the returned flag, the final state of
`OutStruct`, and the traces of arguments passed to the generic mapper and to
the import hook. -/
structure DecodeResult (S : Type) where
  ok : Bool
  outStruct : S
  genericCalls : List FJsonObject
  importHookCalls : List (Option FJsonObject)

/-- Result of `UStructToJsonObject`: the returned (nullable) object and the trace
of arguments passed to the export hook. -/
structure EncodeResult where
  result : Option FJsonObject
  exportHookCalls : List (Option FJsonObject)

/-- Result of `UStructToJsonString`: the returned flag, the produced text (if
any), and the traces of arguments passed to the export hook and to the external
text writer. -/
structure EncodeTextResult where
  ok : Bool
  outJsonString : Option String
  exportHookCalls : List (Option FJsonObject)
  writerCalls : List FJsonObject

/-- `FEnhancedJsonConverter::CallPostJsonImportIfExists`: under
`if constexpr (THasPostJsonImport<T>::Value)` call `Struct.PostJsonImport(JsonObject)`,
otherwise do nothing.  Returns the updated struct and the trace of hook calls. -/
def CallPostJsonImportIfExists (T : StructType S) (Struct : S)
    (JsonObject : Option FJsonObject) : S × List (Option FJsonObject) :=
  if T.hasPostJsonImport then
    (T.postJsonImport Struct JsonObject, [JsonObject])
  else
    (Struct, [])

/-- `FEnhancedJsonConverter::CallPostJsonExportIfExists`: under
`if constexpr (THasPostJsonExport<T>::Value)` return `Struct.PostJsonExport(JsonObject)`,
otherwise return `JsonObject` unchanged.  Returns the value and the trace of hook
calls. -/
def CallPostJsonExportIfExists (T : StructType S) (Struct : S)
    (JsonObject : Option FJsonObject) : Option FJsonObject × List (Option FJsonObject) :=
  if T.hasPostJsonExport then
    (T.postJsonExport Struct JsonObject, [JsonObject])
  else
    (JsonObject, [])

/-- `FEnhancedJsonConverter::JsonObjectToUStruct`: fail on an invalid handle;
run the generic converter; on its failure return false; otherwise call the import
hook if it exists and return true. -/
def JsonObjectToUStruct (T : StructType S) (JsonObject : Option FJsonObject)
    (OutStruct : S) : DecodeResult S :=
  match JsonObject with
  | none => ⟨false, OutStruct, [], []⟩
  | some jo =>
    let m := T.genericImport jo OutStruct
    if m.fst then
      let c := CallPostJsonImportIfExists T m.snd (some jo)
      ⟨true, c.fst, [jo], c.snd⟩
    else
      ⟨false, m.snd, [jo], []⟩

/-- `FEnhancedJsonConverter::UStructToJsonObject`: run the generic converter;
if the produced handle is invalid return `nullptr`; otherwise call the export
hook if it exists and return its value. -/
def UStructToJsonObject (T : StructType S) (InStruct : S) : EncodeResult :=
  match T.genericExport InStruct with
  | none => ⟨none, []⟩
  | some jo =>
    let c := CallPostJsonExportIfExists T InStruct (some jo)
    ⟨c.fst, c.snd⟩

/-- Modelled from the spec: the external text codec's
`FJsonSerializer::Deserialize(Reader, JsonObject)` (`ParseText(text) -> structuredValue|invalid`,
spec §6) as used with a `TSharedPtr<FJsonObject>` out-parameter.  The abstract
parameter `ParseText` gives the top-level JSON value of the text, if the text is
valid JSON; the out-parameter of type `FJsonObject` can only be populated when
that top-level value is a JSON object, so any other outcome leaves the handle
null and reports failure. -/
def FJsonSerializerDeserialize (ParseText : String → Option JsonValue)
    (JsonString : String) : Bool × Option FJsonObject :=
  match ParseText JsonString with
  | some (JsonValue.obj fields) => (true, some fields)
  | _ => (false, none)

/-- `FEnhancedJsonConverter::JsonStringToUStruct`: deserialize the string; if
that fails or yields an invalid handle return false; otherwise delegate to
`JsonObjectToUStruct`. -/
def JsonStringToUStruct (T : StructType S) (ParseText : String → Option JsonValue)
    (JsonString : String) (OutStruct : S) : DecodeResult S :=
  let d := FJsonSerializerDeserialize ParseText JsonString
  if !d.fst || d.snd.isNone then
    ⟨false, OutStruct, [], []⟩
  else
    JsonObjectToUStruct T d.snd OutStruct

/-- `FEnhancedJsonConverter::UStructToJsonString`: delegate to
`UStructToJsonObject`; if the result is invalid return false with no text;
otherwise serialize it via the external text writer (the abstract parameter
`WriteText`, modelled from the spec's `WriteText(structuredValue) -> text|failure`,
§6) and return the writer's own success/failure. -/
def UStructToJsonString (T : StructType S) (WriteText : FJsonObject → Option String)
    (InStruct : S) : EncodeTextResult :=
  let e := UStructToJsonObject T InStruct
  match e.result with
  | none => ⟨false, none, e.exportHookCalls, []⟩
  | some jo =>
    match WriteText jo with
    | none => ⟨false, none, e.exportHookCalls, [jo]⟩
    | some t => ⟨true, some t, e.exportHookCalls, [jo]⟩

/-! ### The capability detectors

`THasPostJsonImport<T>` / `THasPostJsonExport<T>` probe
`decltype(&C::PostJsonImport)` / `decltype(&C::PostJsonExport)` in a SFINAE
overload pair.  To reason about them we model the C++ member lookup they rely
on: a class is its list of declared members, each with a name and a kind that
records whether its type matches the documented hook signature. -/

/-- Whether a member's declared type matches one of the documented hook
signatures (`void PostJsonImport(const TSharedPtr<FJsonObject>&)`,
`TSharedPtr<FJsonObject> PostJsonExport(TSharedPtr<FJsonObject>) const`) or
neither. -/
inductive MemberKind where
  | importHookCompatible
  | exportHookCompatible
  | incompatible
deriving DecidableEq

/-- A declared member of a C++ class: its name and the compatibility of its
type with the hook signatures. -/
structure MemberDecl where
  name : String
  kind : MemberKind
deriving DecidableEq

/-- C++ semantics of the probe `decltype(&C::Name)` in the detectors'
`Test` overloads: the substitution is well-formed iff the class declares
exactly one member with that name (an absent name fails lookup, and an overload
set makes `&C::Name` ambiguous with no target type to disambiguate); the
member's own type plays no role in the probe. -/
def memberAddressWellFormed (members : List MemberDecl) (name : String) : Bool :=
  (members.filter fun m => m.name == name).length == 1

/-- `FEnhancedJsonConverter::THasPostJsonImport<T>::Value`. -/
def THasPostJsonImport (members : List MemberDecl) : Bool :=
  memberAddressWellFormed members "PostJsonImport"

/-- `FEnhancedJsonConverter::THasPostJsonExport<T>::Value`. -/
def THasPostJsonExport (members : List MemberDecl) : Bool :=
  memberAddressWellFormed members "PostJsonExport"

/-! ### Concrete instances used by witnesses -/

/-- A struct type with neither hook: the generic importer bumps a counter, the
generic exporter emits one numeric field. -/
def noHookT : StructType Nat :=
  ⟨fun _ s => (true, s + 1), fun s => some [("n", JsonValue.num s)],
   false, fun s _ => s, false, fun _ j => j⟩

/-- A struct type with both hooks whose generic importer always fails and whose
generic exporter always yields an invalid handle. -/
def failT : StructType Nat :=
  ⟨fun _ s => (false, s), fun _ => none,
   true, fun s _ => s + 7, true, fun _ _ => none⟩

/-- A struct type with both hooks and succeeding generic steps: the import hook
multiplies the state by ten, the export hook passes the value through. -/
def hookedT : StructType Nat :=
  ⟨fun _ s => (true, s + 1), fun s => some [("n", JsonValue.num s)],
   true, fun s _ => s * 10, true, fun _ j => j⟩

/-- A struct type whose generic export succeeds but whose export hook returns an
invalid (null) handle. -/
def nullExportHookT : StructType Nat :=
  ⟨fun _ s => (true, s), fun _ => some [], false, fun s _ => s, true, fun _ _ => none⟩

/-- Field lookup in a JSON object, as the hook code would do with
`FJsonObject::TryGetField`. -/
def lookupField (jo : FJsonObject) (key : String) : Option JsonValue :=
  match jo.find? (fun p => p.fst == key) with
  | some p => some p.snd
  | none => none

/-- The round-trip scenario's struct: one declared field `name` handled by the
generic mapper, one hook-managed field `tags` stored outside declared fields. -/
structure Item where
  name : String
  tags : List String

/-- The `Item` struct type: the generic mapper maps the `name` field only; the
export hook injects `tags` into the object, and the import hook — its exact
inverse over the field it manages — reads `tags` back out. -/
def itemT : StructType Item :=
  ⟨fun jo s =>
      match lookupField jo "name" with
      | some (JsonValue.str n) => (true, ⟨n, s.tags⟩)
      | _ => (false, s),
   fun it => some [("name", JsonValue.str it.name)],
   true,
   fun s j =>
      match j with
      | some jo =>
        match lookupField jo "tags" with
        | some (JsonValue.arr vs) =>
          ⟨s.name, vs.filterMap fun v =>
            match v with
            | JsonValue.str u => some u
            | _ => none⟩
        | _ => ⟨s.name, []⟩
      | none => s,
   true,
   fun it j =>
      match j with
      | some jo => some (jo ++ [("tags", JsonValue.arr (it.tags.map JsonValue.str))])
      | none => none⟩

/-- The object `itemT` encodes `⟨"a", ["x", "y"]⟩` to. -/
def itemJo : FJsonObject :=
  [("name", JsonValue.str "a"),
   ("tags", JsonValue.arr [JsonValue.str "x", JsonValue.str "y"])]

/-- A concrete external writer for the round-trip witness. -/
def itemW : FJsonObject → Option String := fun _ => some "enc"

/-- A concrete external parser for the round-trip witness, inverting `itemW` on
the one object the scenario produces. -/
def itemP : String → Option JsonValue := fun _ => some (JsonValue.obj itemJo)

/-! ### Theorems for the claims -/

/-- C1: if the generic mapper step of decode reports failure, the import hook is
never invoked and `JsonObjectToUStruct` returns false. -/
theorem jsonObjectToUStruct_generic_failure_skips_hook (T : StructType S)
    (jo : FJsonObject) (s : S) (h : (T.genericImport jo s).fst = false) :
    (JsonObjectToUStruct T (some jo) s).ok = false ∧
    (JsonObjectToUStruct T (some jo) s).importHookCalls = [] := by
  simp [JsonObjectToUStruct, h]

/-- Witness for C1 at `failT`, the empty object and struct state `0`. -/
theorem jsonObjectToUStruct_generic_failure_skips_hook_witness :
    (JsonObjectToUStruct failT (some []) 0).ok = false ∧
    (JsonObjectToUStruct failT (some []) 0).importHookCalls = [] :=
  jsonObjectToUStruct_generic_failure_skips_hook failT [] 0 rfl

/-- C2: if the generic mapper step of encode yields an invalid handle,
`UStructToJsonObject` returns an invalid result and the export hook is never
invoked. -/
theorem uStructToJsonObject_generic_failure_skips_hook (T : StructType S) (s : S)
    (h : T.genericExport s = none) :
    (UStructToJsonObject T s).result = none ∧
    (UStructToJsonObject T s).exportHookCalls = [] := by
  simp [UStructToJsonObject, h]

/-- Witness for C2 at `failT` and struct state `0`. -/
theorem uStructToJsonObject_generic_failure_skips_hook_witness :
    (UStructToJsonObject failT 0).result = none ∧
    (UStructToJsonObject failT 0).exportHookCalls = [] :=
  uStructToJsonObject_generic_failure_skips_hook failT 0 rfl

/-- C3: for a struct type with neither hook, `JsonObjectToUStruct` and
`UStructToJsonObject` behave exactly as the generic mapper alone (same flag,
same struct state, same produced value, no hook calls), apart from the
invalid-handle guard on decode, which fails without touching the struct. -/
theorem no_hooks_pass_through (T : StructType S)
    (hI : T.hasPostJsonImport = false) (hE : T.hasPostJsonExport = false) :
    (∀ jo s, JsonObjectToUStruct T (some jo) s =
      ⟨(T.genericImport jo s).fst, (T.genericImport jo s).snd, [jo], []⟩) ∧
    (∀ s : S, JsonObjectToUStruct T none s = ⟨false, s, [], []⟩) ∧
    (∀ s, (UStructToJsonObject T s).result = T.genericExport s ∧
          (UStructToJsonObject T s).exportHookCalls = []) := by
  refine ⟨fun jo s => ?_, fun s => rfl, fun s => ?_⟩
  · rcases hm : T.genericImport jo s with ⟨ok, s'⟩
    cases ok <;> simp [JsonObjectToUStruct, CallPostJsonImportIfExists, hI, hm]
  · cases he : T.genericExport s <;>
      simp [UStructToJsonObject, CallPostJsonExportIfExists, hE, he]

/-- Witness for C3 at `noHookT`: decode on the empty object from state `0` is
exactly the generic import, and encode is exactly the generic export. -/
theorem no_hooks_pass_through_witness :
    JsonObjectToUStruct noHookT (some []) 0 = ⟨true, 1, [[]], []⟩ ∧
    (UStructToJsonObject noHookT 0).result = some [("n", JsonValue.num 0)] :=
  ⟨(no_hooks_pass_through noHookT rfl rfl).1 [] 0,
   ((no_hooks_pass_through noHookT rfl rfl).2.2 0).1⟩

/-- C5 counterexample: at `nullExportHookT` and state `0` the generic exporter
succeeds (yields `some []`), yet `UStructToJsonObject` returns an invalid
result — so the generic mapper's failure path is not the only source of an
invalid result, refuting the claim as stated. -/
theorem uStructToJsonObject_invalid_beyond_generic_counterexample :
    nullExportHookT.genericExport 0 = some [] ∧
    (UStructToJsonObject nullExportHookT 0).result = none :=
  ⟨rfl, rfl⟩

/-- C5 (amended): the final output of `UStructToJsonObject` is exactly the
generic mapper's value or the export-hook-returned value, and an invalid result
arises only from the generic mapper's failure path or from an export hook that
itself returns an invalid value. -/
theorem uStructToJsonObject_output_characterisation (T : StructType S) (s : S) :
    ((UStructToJsonObject T s).result = T.genericExport s ∨
      ∃ g, T.genericExport s = some g ∧ T.hasPostJsonExport = true ∧
        (UStructToJsonObject T s).result = T.postJsonExport s (some g)) ∧
    ((UStructToJsonObject T s).result = none →
      T.genericExport s = none ∨
        T.hasPostJsonExport = true ∧ ∃ g, T.genericExport s = some g ∧
          T.postJsonExport s (some g) = none) := by
  cases he : T.genericExport s with
  | none => simp [UStructToJsonObject, he]
  | some g =>
    by_cases hE : T.hasPostJsonExport
    · constructor
      · exact Or.inr ⟨g, rfl, hE, by simp [UStructToJsonObject, CallPostJsonExportIfExists, he, hE]⟩
      · intro h
        refine Or.inr ⟨hE, g, rfl, ?_⟩
        simpa [UStructToJsonObject, CallPostJsonExportIfExists, he, hE] using h
    · constructor
      · exact Or.inl (by simp [UStructToJsonObject, CallPostJsonExportIfExists, he, hE])
      · intro h
        exact absurd h (by simp [UStructToJsonObject, CallPostJsonExportIfExists, he, hE])

/-- Witness for the implication in C5's amended theorem, at `nullExportHookT`
and state `0`, where the result is invalid. -/
theorem uStructToJsonObject_output_characterisation_witness :
    nullExportHookT.genericExport 0 = none ∨
      nullExportHookT.hasPostJsonExport = true ∧
        ∃ g, nullExportHookT.genericExport 0 = some g ∧
          nullExportHookT.postJsonExport 0 (some g) = none :=
  (uStructToJsonObject_output_characterisation nullExportHookT 0).2 rfl

/-- C6: for a struct type with an import hook, when decode succeeds the hook is
invoked exactly once, receives the original full structured value, and runs on
the struct state the generic mapping fully produced. -/
theorem import_hook_called_once_with_original (T : StructType S)
    (hI : T.hasPostJsonImport = true) (jo : FJsonObject) (s : S)
    (h : (T.genericImport jo s).fst = true) :
    (JsonObjectToUStruct T (some jo) s).ok = true ∧
    (JsonObjectToUStruct T (some jo) s).importHookCalls = [some jo] ∧
    (JsonObjectToUStruct T (some jo) s).outStruct =
      T.postJsonImport (T.genericImport jo s).snd (some jo) := by
  simp [JsonObjectToUStruct, CallPostJsonImportIfExists, h, hI]

/-- Witness for C6 at `hookedT`, the empty object and state `0`: the generic
mapping produces `1`, then the hook maps it to `10`. -/
theorem import_hook_called_once_with_original_witness :
    (JsonObjectToUStruct hookedT (some []) 0).ok = true ∧
    (JsonObjectToUStruct hookedT (some []) 0).importHookCalls = [some []] ∧
    (JsonObjectToUStruct hookedT (some []) 0).outStruct = 10 :=
  import_hook_called_once_with_original hookedT rfl [] 0 rfl

/-- C7: `UStructToJsonString` returns false with no text and no writer call when
`UStructToJsonObject` yields an invalid value; otherwise it passes exactly that
value to the external writer and returns the writer's own success/failure and
text. -/
theorem uStructToJsonString_delegates_and_propagates (T : StructType S)
    (W : FJsonObject → Option String) (s : S) :
    ((UStructToJsonObject T s).result = none →
      (UStructToJsonString T W s).ok = false ∧
      (UStructToJsonString T W s).outJsonString = none ∧
      (UStructToJsonString T W s).writerCalls = []) ∧
    (∀ jo, (UStructToJsonObject T s).result = some jo →
      (UStructToJsonString T W s).writerCalls = [jo] ∧
      (UStructToJsonString T W s).ok = (W jo).isSome ∧
      (UStructToJsonString T W s).outJsonString = W jo) := by
  constructor
  · intro h
    simp [UStructToJsonString, h]
  · intro jo h
    cases hw : W jo <;> simp [UStructToJsonString, h, hw]

/-- Witness for C7: the failing branch at `failT` and the succeeding branch at
`hookedT` with a writer that always produces the text `"t"`. -/
theorem uStructToJsonString_delegates_and_propagates_witness :
    (UStructToJsonString failT (fun _ => some "t") 0).ok = false ∧
    (UStructToJsonString hookedT (fun _ => some "t") 0).outJsonString = some "t" :=
  ⟨((uStructToJsonString_delegates_and_propagates failT (fun _ => some "t") 0).1 rfl).1,
   ((uStructToJsonString_delegates_and_propagates hookedT (fun _ => some "t") 0).2
      [("n", JsonValue.num 0)] rfl).2.2⟩

/-- C9: when the export hook returns an invalid (null) handle,
`UStructToJsonObject` returns it unvalidated, and `UStructToJsonString` then
returns false without invoking the text writer and without producing text. -/
theorem null_export_hook_propagates (T : StructType S)
    (W : FJsonObject → Option String) (s : S) (g : FJsonObject)
    (hE : T.hasPostJsonExport = true) (hg : T.genericExport s = some g)
    (hh : T.postJsonExport s (some g) = none) :
    (UStructToJsonObject T s).result = none ∧
    (UStructToJsonString T W s).ok = false ∧
    (UStructToJsonString T W s).outJsonString = none ∧
    (UStructToJsonString T W s).writerCalls = [] := by
  have hr : (UStructToJsonObject T s).result = none := by
    simp [UStructToJsonObject, CallPostJsonExportIfExists, hg, hE, hh]
  refine ⟨hr, ?_, ?_, ?_⟩ <;> simp [UStructToJsonString, hr]

/-- Witness for C9 at `nullExportHookT` and state `0`. -/
theorem null_export_hook_propagates_witness :
    (UStructToJsonObject nullExportHookT 0).result = none ∧
    (UStructToJsonString nullExportHookT (fun _ => some "t") 0).ok = false ∧
    (UStructToJsonString nullExportHookT (fun _ => some "t") 0).outJsonString = none ∧
    (UStructToJsonString nullExportHookT (fun _ => some "t") 0).writerCalls = [] :=
  null_export_hook_propagates nullExportHookT (fun _ => some "t") 0 [] rfl rfl rfl

/-- C8 counterexample: a class whose single `PostJsonImport` member has an
incompatible signature still makes `THasPostJsonImport` report true — the
detector misfires on an unrelated same-named member, refuting the claim as
stated. -/
theorem detector_misfires_counterexample :
    THasPostJsonImport [⟨"PostJsonImport", MemberKind.incompatible⟩] = true ∧
    ∀ m ∈ [MemberDecl.mk "PostJsonImport" MemberKind.incompatible],
      m.kind ≠ MemberKind.importHookCompatible := by
  decide

/-- C8 (amended): the detectors are purely name-based — each reports a hook as
present exactly when the class declares a unique member with the conventional
name, regardless of that member's signature; in particular they report false
for classes with no such member, so a unique properly-named hook of the
documented signature is always detected. -/
theorem detectors_match_by_name_only (members : List MemberDecl) :
    (THasPostJsonImport members = true ↔
      (members.filter fun m => m.name == "PostJsonImport").length = 1) ∧
    ((∀ m ∈ members, m.name ≠ "PostJsonImport") → THasPostJsonImport members = false) ∧
    (THasPostJsonExport members = true ↔
      (members.filter fun m => m.name == "PostJsonExport").length = 1) ∧
    ((∀ m ∈ members, m.name ≠ "PostJsonExport") → THasPostJsonExport members = false) := by
  have hchar : ∀ name, memberAddressWellFormed members name = true ↔
      (members.filter fun m => m.name == name).length = 1 := by
    intro name
    simp [memberAddressWellFormed]
  have hnone : ∀ name, (∀ m ∈ members, m.name ≠ name) →
      memberAddressWellFormed members name = false := by
    intro name h
    have hfil : members.filter (fun m => m.name == name) = [] := by
      refine List.filter_eq_nil_iff.mpr fun m hm => ?_
      simp [h m hm]
    simp [memberAddressWellFormed, hfil]
  exact ⟨hchar "PostJsonImport", hnone "PostJsonImport",
         hchar "PostJsonExport", hnone "PostJsonExport"⟩

/-- Witness for C8's amended theorem at a class declaring only a proper export
hook: the import detector reports false, the export detector reports true. -/
theorem detectors_match_by_name_only_witness :
    THasPostJsonImport [⟨"PostJsonExport", MemberKind.exportHookCompatible⟩] = false ∧
    THasPostJsonExport [⟨"PostJsonExport", MemberKind.exportHookCompatible⟩] = true :=
  ⟨(detectors_match_by_name_only
      [⟨"PostJsonExport", MemberKind.exportHookCompatible⟩]).2.1 (by decide),
   (detectors_match_by_name_only
      [⟨"PostJsonExport", MemberKind.exportHookCompatible⟩]).2.2.1.mpr (by decide)⟩

/-- C10: for input text whose top-level JSON value is not an object (though
possibly valid JSON), `JsonStringToUStruct` returns false, leaves the struct
untouched, and reaches neither the generic mapper nor the import hook. -/
theorem jsonStringToUStruct_nonobject_fails (T : StructType S)
    (P : String → Option JsonValue) (t : String) (s : S) (v : JsonValue)
    (hp : P t = some v) (hv : ∀ fields, v ≠ JsonValue.obj fields) :
    JsonStringToUStruct T P t s = ⟨false, s, [], []⟩ := by
  unfold JsonStringToUStruct FJsonSerializerDeserialize
  rw [hp]
  cases v with
  | obj fields => exact absurd rfl (hv fields)
  | arr l => rfl
  | str u => rfl
  | num n => rfl
  | boolean b => rfl
  | null => rfl

/-- Witness for C10 with a parser yielding a top-level JSON array. -/
theorem jsonStringToUStruct_nonobject_fails_witness :
    JsonStringToUStruct noHookT (fun _ => some (JsonValue.arr [])) "[]" 0 =
      ⟨false, 0, [], []⟩ :=
  jsonStringToUStruct_nonobject_fails noHookT (fun _ => some (JsonValue.arr [])) "[]" 0
    (JsonValue.arr []) rfl (fun _ h => JsonValue.noConfusion h)

/-- Unfolding lemma for `UStructToJsonString`, shared by proofs below. -/
theorem uStructToJsonString_eq (T : StructType S) (W : FJsonObject → Option String)
    (s : S) :
    UStructToJsonString T W s =
      match (UStructToJsonObject T s).result with
      | none => ⟨false, none, (UStructToJsonObject T s).exportHookCalls, []⟩
      | some jo =>
        match W jo with
        | none => ⟨false, none, (UStructToJsonObject T s).exportHookCalls, [jo]⟩
        | some u => ⟨true, some u, (UStructToJsonObject T s).exportHookCalls, [jo]⟩ :=
  rfl

/-- C4 (round-trip law): for a struct type whose import hook is the exact
inverse of its export hook with respect to the fields it manages — stated here
as: on the object that encode produces, the generic import succeeds and the
hook step maps the generically-imported state back to `x` — and whose
external parser inverts the external writer on that object, decoding the text
produced by `UStructToJsonString` on `x` succeeds and reproduces `x`. -/
theorem decode_encode_roundtrip (T : StructType S)
    (P : String → Option JsonValue) (W : FJsonObject → Option String)
    (x s0 : S) (t : String)
    (ht : (UStructToJsonString T W x).outJsonString = some t)
    (hpw : ∀ jo, (UStructToJsonObject T x).result = some jo →
      ∀ u, W jo = some u → P u = some (JsonValue.obj jo))
    (hmap : ∀ jo, (UStructToJsonObject T x).result = some jo →
      (T.genericImport jo s0).fst = true)
    (hinv : ∀ jo, (UStructToJsonObject T x).result = some jo →
      (CallPostJsonImportIfExists T (T.genericImport jo s0).snd (some jo)).fst = x) :
    (JsonStringToUStruct T P t s0).ok = true ∧
    (JsonStringToUStruct T P t s0).outStruct = x := by
  rw [uStructToJsonString_eq] at ht
  cases hr : (UStructToJsonObject T x).result with
  | none =>
    rw [hr] at ht
    exact absurd ht (by simp)
  | some jo =>
    rw [hr] at ht
    dsimp only at ht
    cases hwj : W jo with
    | none =>
      rw [hwj] at ht
      exact absurd ht (by simp)
    | some u =>
      rw [hwj] at ht
      have hu : u = t := by simpa using ht
      subst hu
      have hpt : P u = some (JsonValue.obj jo) := hpw jo hr u hwj
      have hm := hmap jo hr
      have hi := hinv jo hr
      have hd : JsonStringToUStruct T P u s0 = JsonObjectToUStruct T (some jo) s0 := by
        unfold JsonStringToUStruct FJsonSerializerDeserialize
        rw [hpt]
        rfl
      rw [hd]
      constructor <;> simp [JsonObjectToUStruct, hm, hi]

/-- Witness for C4: the spec's concrete scenario — `Item ⟨"a", ["x", "y"]⟩`
round-trips through `itemT`, `itemW` and `itemP`. -/
theorem decode_encode_roundtrip_witness :
    (JsonStringToUStruct itemT itemP "enc" ⟨"", []⟩).ok = true ∧
    (JsonStringToUStruct itemT itemP "enc" ⟨"", []⟩).outStruct = ⟨"a", ["x", "y"]⟩ :=
  decode_encode_roundtrip itemT itemP itemW ⟨"a", ["x", "y"]⟩ ⟨"", []⟩ "enc" rfl
    (fun jo hjo u hu => by
      have hjo' : some itemJo = some jo := hjo
      injection hjo' with h
      subst h
      injection hu with h2
      subst h2
      rfl)
    (fun jo hjo => by
      have hjo' : some itemJo = some jo := hjo
      injection hjo' with h
      subst h
      rfl)
    (fun jo hjo => by
      have hjo' : some itemJo = some jo := hjo
      injection hjo' with h
      subst h
      rfl)

end ChrisUE
